import Mathlib

/-!
Verification development for the incremental multi-scale registration and
surface-reconstruction engine of the `3d-marketplace` pipeline
(`src/pipeline/registration2.py`, `src/pipeline/point_cloud_to_mesh.py`).

The Python code drives the Open3D library.  Repository-level control flow
(branching, gating, loop structure, threshold formulas) is translated
directly from the source; calls into Open3D / NumPy numerical kernels
(ICP, RANSAC, nearest-neighbour evaluation, matrix inverse, normal
estimation, outlier removal) are modelled as explicit function parameters
("oracles"), so every theorem quantifies over all possible behaviours of
those kernels while the repository's own logic is fixed and executable.
-/

/-- A 3D point with exact rational coordinates. -/
abbrev Pt : Type := ℚ × ℚ × ℚ

/-- Index of the voxel (edge length `s`) containing a point: componentwise
`⌊coordinate / s⌋`.  Modelled from the spec: the voxel-grid bucketing of
`voxel_down_sample` (an Open3D primitive called at
`registration2.py:50`), per spec §4.2: "Downsampling buckets points into a
voxel grid of edge length voxel_size". -/
def voxelIdx (s : ℚ) (p : Pt) : ℤ × ℤ × ℤ :=
  (⌊p.1 / s⌋, ⌊p.2.1 / s⌋, ⌊p.2.2 / s⌋)

/-- Componentwise centroid of a list of points (the mean position).
Modelled from the spec §4.2: each occupied voxel is replaced by "the
centroid of its members". -/
def centroid (l : List Pt) : Pt :=
  ((l.map (fun p => p.1)).sum / (l.length : ℚ),
   (l.map (fun p => p.2.1)).sum / (l.length : ℚ),
   (l.map (fun p => p.2.2)).sum / (l.length : ℚ))

/-- Modelled from the spec: the voxel-grid downsampling performed by
Open3D's `voxel_down_sample` (the library call at `registration2.py:50`,
whose body is not part of this repository), following spec §4.2 verbatim:
points are bucketed into a voxel grid of edge length `s` and each
occupied voxel is replaced by the centroid of its members (deterministic,
not random selection).  The enumeration order of the occupied voxels is
the deduplication order of their indices. -/
def voxel_down_sample (s : ℚ) (pts : List Pt) : List Pt :=
  ((pts.map (voxelIdx s)).dedup).map
    (fun k => centroid (pts.filter (fun p => decide (voxelIdx s p = k))))

/-- Validity predicate on one raw depth sample, translated from
`registration2.py:18`: `(depth_map > 0) & (depth_map < depth_trunc * depth_scale)`. -/
def validDepth (depth_scale depth_trunc d : ℚ) : Bool :=
  decide (0 < d) && decide (d < depth_trunc * depth_scale)

/-- Point-cloud construction gate, translated from
`registration2.py:9-40` (`create_point_cloud`).  The depth map is the
flattened list of its samples; `buildCloud` is the oracle for the Open3D
RGBD back-projection (lines 22-33), `countPoints` for `len(pcd.points)`,
and `removeOutlier` for `remove_statistical_outlier` (line 38) given the
adaptively chosen neighbour count.  Returns `none` exactly when fewer
than 100 samples pass the validity mask (lines 18-20); otherwise the
fully built, outlier-filtered cloud. -/
def create_point_cloud {Cloud : Type}
    (buildCloud : List ℚ → Cloud) (countPoints : Cloud → Nat)
    (removeOutlier : Cloud → Nat → Cloud)
    (depth_map : List ℚ) (depth_scale depth_trunc : ℚ) : Option Cloud :=
  if (depth_map.countP (fun d => validDepth depth_scale depth_trunc d)) < 100 then
    none
  else
    let pcd := buildCloud depth_map
    if 0 < countPoints pcd then
      let nb_neighbors := min 30 (max 10 (countPoints pcd / 1000))
      some (removeOutlier pcd nb_neighbors)
    else
      some pcd

/-- An IEEE-754 double as observed by the NaN/Inf checks of the source:
either a finite value (kept exact as a rational), a signed infinity, or
NaN.  Only the classification matters to the repository's own logic. -/
inductive FVal : Type where
  | fin : ℚ → FVal
  | pinf : FVal
  | ninf : FVal
  | nan : FVal
deriving DecidableEq, Repr

/-- A 4×4 homogeneous transformation matrix, entry by entry (row-major). -/
abbrev Mat4 : Type := List (List FVal)

/-- `np.any(np.isnan(m))`: does the matrix contain a NaN entry?
Translated from `registration2.py:201`.  Note: `np.isnan` is true only
for NaN, not for ±Inf. -/
def mat4AnyNaN (m : Mat4) : Bool :=
  m.any (fun row => row.any (fun x => decide (x = FVal.nan)))

/-- Does the matrix contain a +Inf or -Inf entry (`np.isinf`)? -/
def mat4AnyInf (m : Mat4) : Bool :=
  m.any (fun row => row.any (fun x => decide (x = FVal.pinf) || decide (x = FVal.ninf)))

/-- `np.identity(4)` as a `Mat4`. -/
def identity4 : Mat4 :=
  [[FVal.fin 1, FVal.fin 0, FVal.fin 0, FVal.fin 0],
   [FVal.fin 0, FVal.fin 1, FVal.fin 0, FVal.fin 0],
   [FVal.fin 0, FVal.fin 0, FVal.fin 1, FVal.fin 0],
   [FVal.fin 0, FVal.fin 0, FVal.fin 0, FVal.fin 1]]

/-- The scale loop of `multi_scale_icp` (`registration2.py:171-198`),
generic over the cloud type `Cloud`, feature type `Feat` and transform
type `T`.  Oracles: `preprocess` models `preprocess_point_cloud`
(returns `none` when the Python pair is `(None, None)`), `globalReg`
models `execute_global_registration` (`none` on its exception path),
`refine` models `refine_registration` (`none` on its `None` path).
At index 0 with the running transform still equal to the identity
(`np.allclose` is exact there: nothing has modified it yet), global
registration seeds the transform (lines 180-188); at every scale local
refinement replaces it when it returns a result (lines 191-198); a scale
whose preprocessing fails is skipped (lines 176-177). -/
def msIcpLoop {Cloud Feat T : Type} [DecidableEq T]
    (preprocess : Cloud → ℚ → Option (Cloud × Feat))
    (globalReg : Cloud → Cloud → Feat → Feat → ℚ → Option T)
    (refine : Cloud → Cloud → T → ℚ → Option T)
    (ident : T) (source target : Cloud) :
    List ℚ → Nat → T → T
  | [], _, cur => cur
  | voxel_size :: rest, i, cur =>
    match preprocess source voxel_size, preprocess target voxel_size with
    | some (source_down, source_fpfh), some (target_down, target_fpfh) =>
      let cur1 :=
        if i = 0 ∧ cur = ident then
          match globalReg source_down target_down source_fpfh target_fpfh voxel_size with
          | some r => r
          | none => cur
        else cur
      let cur2 :=
        match refine source_down target_down cur1 voxel_size with
        | some r => r
        | none => cur1
      msIcpLoop preprocess globalReg refine ident source target rest (i + 1) cur2
    | _, _ =>
      msIcpLoop preprocess globalReg refine ident source target rest (i + 1) cur

/-- `multi_scale_icp` (`registration2.py:154-205`), generic over the
transform type.  `anyNaN` models the final `np.any(np.isnan(...))`
validation (line 201): when the final transformation contains NaN the
identity is returned instead (lines 203-205); `None` inputs yield `None`
(lines 158-159).  The caller supplies the voxel-size schedule, as both
call sites in `incremental_registration` do (lines 277, 320). -/
def multi_scale_icp {Cloud Feat T : Type} [DecidableEq T]
    (preprocess : Cloud → ℚ → Option (Cloud × Feat))
    (globalReg : Cloud → Cloud → Feat → Feat → ℚ → Option T)
    (refine : Cloud → Cloud → T → ℚ → Option T)
    (ident : T) (anyNaN : T → Bool)
    (source target : Option Cloud) (voxel_sizes : List ℚ) : Option T :=
  match source, target with
  | some s, some t =>
    let current_transformation :=
      msIcpLoop preprocess globalReg refine ident s t voxel_sizes 0 ident
    if anyNaN current_transformation then some ident
    else some current_transformation
  | _, _ => none

/-- The raw output of Open3D's
`o3d.pipelines.registration.evaluate_registration` call
(`registration2.py:221-223`): fitness, inlier RMSE and correspondence
count. -/
structure RawEval : Type where
  fitness : ℚ
  inlier_rmse : ℚ
  corr : Nat
deriving DecidableEq, Repr

/-- The metrics dictionary built by `evaluate_registration`
(`registration2.py:207-236`).  `success = none` models a dictionary
with no `'success'` key at all (the dictionary literal at line 212 has
only three keys); `success = some b` models the key being present with
value `b`. -/
structure RegMetrics : Type where
  fitness : ℚ
  inlier_rmse : FVal
  correspondence_set : Nat
  success : Option Bool
deriving DecidableEq, Repr

/-- `evaluate_registration` (`registration2.py:207-236`), generic over
cloud and transform types.  Oracles: `diam` models the NumPy
bounding-box-diagonal norm of lines 216-218, `evalO` the Open3D
evaluation call of lines 221-223 (`none` models its exception path,
caught at lines 234-236).  On `None` inputs the three-key dictionary of
line 212 is returned (no `'success'` entry); on the normal path
`success` is computed from the thresholds of line 230; on the exception
path it is `False` (line 236). -/
def evaluate_registration {Cloud T : Type}
    (diam : Cloud → ℚ) (evalO : Cloud → Cloud → ℚ → T → Option RawEval)
    (source target : Option Cloud) (transformation : T) (threshold : ℚ) : RegMetrics :=
  match source, target with
  | some s, some t =>
    let adaptive_threshold := min threshold (diam s * (1 / 100))
    match evalO s t adaptive_threshold transformation with
    | some ev =>
      { fitness := ev.fitness
        inlier_rmse := FVal.fin ev.inlier_rmse
        correspondence_set := ev.corr
        success := some (decide (ev.fitness > 3 / 10 ∧ ev.inlier_rmse < adaptive_threshold * 2)) }
    | none =>
      { fitness := 0, inlier_rmse := FVal.pinf, correspondence_set := 0
        success := some false }
  | _, _ =>
    { fitness := 0, inlier_rmse := FVal.pinf, correspondence_set := 0
      success := none }

/-- The adaptive evaluation threshold exactly as the spec's sentence for
the fusion loop states it: `min(0.02, 0.01·source_diameter)`.  Written
from the spec's words (§4.6) for comparison with the threshold the code
actually computes inside the fusion loop. -/
def spec_adaptive_threshold (source_diameter : ℚ) : ℚ :=
  min (2 / 100) (source_diameter * (1 / 100))

/-- The Open3D / NumPy operations used by `incremental_registration`
(`registration2.py:238-357`), collected as oracles over an abstract
cloud type `α` and transform type `T`: `applyT` is `pcd.transform` on a
deep copy, `addC` is `merged += cloud`, `downsample` is
`voxel_down_sample`, `removeOutlier20` is
`remove_statistical_outlier(nb_neighbors=20, std_ratio=2.0)`, `diam` and
`evalO` feed `evaluate_registration`, `matMul` is `@`, `matInv` is
`np.linalg.inv` (`none` = `LinAlgError`), `powSixthRoot` is elementwise
`** (1/6)`, `powNat` is elementwise `** i` (both total: NumPy
elementwise power yields NaN rather than raising), `nonEmpty` is
`pcd is not None and len(pcd.points) > 0`, and `estimateNormals` /
`orientNormals` are the finalization calls of lines 352-355. -/
structure FusionOps (α T : Type) : Type where
  applyT : T → α → α
  addC : α → α → α
  downsample : α → ℚ → α
  removeOutlier20 : α → α
  diam : α → ℚ
  evalO : α → α → ℚ → T → Option RawEval
  matMul : T → T → T
  matInv : T → Option T
  powSixthRoot : T → T
  powNat : T → Nat → T
  nonEmpty : α → Bool
  estimateNormals : α → ℚ → α
  orientNormals : α → α

/-- The running state of the fusion loop: the merged model and the list
of recorded per-frame transformations (`registration2.py:267-268`). -/
structure FuseState (α T : Type) : Type where
  merged : α
  transformations : List T
deriving DecidableEq, Repr

/-- One iteration of the fusion loop (`registration2.py:271-301`) for
frame index `i` (the index of `current_pcd` in the valid-cloud list).
When multi-scale registration returns no transform the frame is skipped
(lines 280-282).  Otherwise the quality metrics are computed with
threshold `voxel_size * 2` (line 285); on success the transformed frame
is appended, the transform recorded, and — when the frame index `i` is
divisible by `batch_size` — the model is consolidated (lines 287-299);
on failure the frame is skipped (lines 300-301). -/
def fuseStep {α T : Type} (msIcp : α → α → Option T) (ops : FusionOps α T)
    (voxel_size : ℚ) (batch_size : Nat) (i : Nat) (current_pcd : α)
    (st : FuseState α T) : FuseState α T :=
  match msIcp current_pcd st.merged with
  | none => st
  | some transformation =>
    let metrics := evaluate_registration ops.diam ops.evalO
        (some current_pcd) (some st.merged) transformation (voxel_size * 2)
    if metrics.success = some true then
      let merged1 := ops.addC st.merged (ops.applyT transformation current_pcd)
      let merged2 :=
        if i % batch_size = 0 then ops.removeOutlier20 (ops.downsample merged1 voxel_size)
        else merged1
      { merged := merged2, transformations := st.transformations ++ [transformation] }
    else st

/-- The fusion loop `for i in range(1, len(valid_pcd_list))`
(`registration2.py:271`), folding `fuseStep` over the clouds after the
seed with their indices. -/
def fuseLoop {α T : Type} (msIcp : α → α → Option T) (ops : FusionOps α T)
    (voxel_size : ℚ) (batch_size : Nat) :
    Nat → FuseState α T → List α → FuseState α T
  | _, st, [] => st
  | i, st, c :: rest =>
    fuseLoop msIcp ops voxel_size batch_size (i + 1)
      (fuseStep msIcp ops voxel_size batch_size i c st) rest

/-- The loop-closure rebuild `for i in range(1, len(valid_pcd_list))`
(`registration2.py:337-343`): frame `i` is transformed by
`transformations[i] @ (error_root ** i)` and appended.  When `i` runs
past the end of `transformations` the Python subscript raises
`IndexError`, which the enclosing `except` (line 344) catches: execution
stops there and whatever partial rebuild `merged` holds at that moment
is kept.  That is modelled by returning the current accumulator when
`ts.get? i = none`. -/
def rebuildGo {α T : Type} (ops : FusionOps α T) (ts : List T) (error_root : T) :
    Nat → α → List α → α
  | _, merged, [] => merged
  | i, merged, c :: rest =>
    match ts.get? i with
    | some t =>
      rebuildGo ops ts error_root (i + 1)
        (ops.addC merged (ops.applyT (ops.matMul t (ops.powNat error_root i)) c)) rest
    | none => merged

/-- `error_root = np.identity(4); for i in range(6): error_root =
error_root @ (inv(error_per_transform) ** (1/6))`
(`registration2.py:331-333`), with `step` the (fixed) matrix multiplied
in at each of the `n` iterations. -/
def errorRootIter {T : Type} (matMul : T → T → T) (ident : T) (step : T) : Nat → T
  | 0 => ident
  | n + 1 => matMul (errorRootIter matMul ident step n) step

/-- The loop-closure attempt (`registration2.py:304-345`), entered when
the valid-cloud list has more than 10 elements; returns the merged model
to carry forward.  `valid` is the full valid-cloud list with head `v0`.
The accumulated transform composes `transformations[1:]` (lines
311-313); the last cloud is mapped into the shared frame and registered
against the first (lines 315-321).  Failure paths that retain
`st.merged`: registration returns no transform (line 323 guard), the
quality gate fails (line 326), or `np.linalg.inv` raises (lines 330,
333; caught at line 344).  On success the model is rebuilt via
`rebuildGo`, which keeps a partial rebuild if the transform list is
exhausted early. -/
def loopClosureStep {α T : Type} (msIcp : α → α → Option T) (ops : FusionOps α T)
    (ident : T) (voxel_size : ℚ) (v0 : α) (valid : List α)
    (st : FuseState α T) : α :=
  let accumulated_transform := (st.transformations.drop 1).foldl ops.matMul ident
  let last_transformed := ops.applyT accumulated_transform (valid.getLastD v0)
  match msIcp last_transformed v0 with
  | none => st.merged
  | some loop_transform =>
    let metrics := evaluate_registration ops.diam ops.evalO
        (some last_transformed) (some v0) loop_transform (voxel_size * 2)
    if metrics.success = some true then
      match ops.matInv (ops.matMul accumulated_transform loop_transform) with
      | none => st.merged
      | some error_per_transform =>
        match ops.matInv error_per_transform with
        | none => st.merged
        | some invErrPer =>
          let error_root := errorRootIter ops.matMul ident (ops.powSixthRoot invErrPer) 6
          rebuildGo ops st.transformations error_root 1 v0 (valid.drop 1)
    else st.merged

/-- `incremental_registration` (`registration2.py:238-357`), generic over
cloud, feature and transform types, with the Open3D kernels as oracles.
An empty input returns `None` and a one-element input returns its sole
element verbatim (lines 242-243).  Otherwise: clouds are filtered for
validity (line 262), the first valid cloud seeds the model with the
identity transform recorded (lines 267-268), the fusion loop runs over
the rest (lines 271-301), loop closure is attempted only when more than
10 valid clouds exist (lines 303-345), and the model is finally
consolidated, given normals and returned (lines 347-357).  The model
takes `voxel_size` explicitly, as the pipeline call site does
(`registration2.py:433`); the `voxel_size is None` autocomputation
(lines 246-259) is not exercised. -/
def incremental_registration {α Feat T : Type} [DecidableEq T]
    (preprocess : α → ℚ → Option (α × Feat))
    (globalReg : α → α → Feat → Feat → ℚ → Option T)
    (refine : α → α → T → ℚ → Option T)
    (ident : T) (anyNaN : T → Bool) (ops : FusionOps α T)
    (pcd_list : List α) (voxel_size : ℚ) (batch_size : Nat) : Option α :=
  match pcd_list with
  | [] => none
  | [p] => some p
  | _ =>
    let msIcp := fun a b =>
      multi_scale_icp preprocess globalReg refine ident anyNaN (some a) (some b)
        [voxel_size * 4, voxel_size * 2, voxel_size]
    let valid_pcd_list := pcd_list.filter ops.nonEmpty
    match valid_pcd_list with
    | [] => none
    | v0 :: rest =>
      let st := fuseLoop msIcp ops voxel_size batch_size 1
        { merged := v0, transformations := [ident] } rest
      let merged2 :=
        if valid_pcd_list.length > 10 then
          loopClosureStep msIcp ops ident voxel_size v0 valid_pcd_list st
        else st.merged
      let merged3 := ops.removeOutlier20 (ops.downsample merged2 voxel_size)
      some (ops.orientNormals (ops.estimateNormals merged3 voxel_size))

/-- A triangle mesh: vertex positions and triangles as index triples. -/
structure Mesh : Type where
  vertices : List Pt
  triangles : List (Nat × Nat × Nat)
deriving DecidableEq, Repr

/-- Componentwise difference of two points. -/
def vsub (u v : Pt) : Pt :=
  (u.1 - v.1, u.2.1 - v.2.1, u.2.2 - v.2.2)

/-- Cross product of two 3D vectors; it vanishes exactly on collinear
edge vectors, i.e. on zero-area triangles. -/
def vcross (u v : Pt) : Pt :=
  (u.2.1 * v.2.2 - u.2.2 * v.2.1,
   u.2.2 * v.1 - u.1 * v.2.2,
   u.1 * v.2.1 - u.2.1 * v.1)

/-- The three vertex positions of a triangle, looked up in the vertex
list (out-of-range indices read the origin). -/
def triPositions (vs : List Pt) (t : Nat × Nat × Nat) : Pt × Pt × Pt :=
  (vs.getD t.1 (0, 0, 0), vs.getD t.2.1 (0, 0, 0), vs.getD t.2.2 (0, 0, 0))

/-- A triangle is degenerate when it has zero area: the cross product of
its edge vectors vanishes (spec §3: "no degenerate triangles (zero
area)"). -/
def triDegenerate (vs : List Pt) (t : Nat × Nat × Nat) : Bool :=
  let p := triPositions vs t
  decide (vcross (vsub p.2.1 p.1) (vsub p.2.2 p.1) = ((0 : ℚ), (0 : ℚ), (0 : ℚ)))

/-- Modelled from the spec: Open3D's `remove_degenerate_triangles`
(called at `registration2.py:399`; its body is library code), per spec
§4.7 / §3: drop every zero-area triangle, vertices unchanged. -/
def remove_degenerate_triangles (m : Mesh) : Mesh :=
  { vertices := m.vertices
    triangles := m.triangles.filter (fun t => ! triDegenerate m.vertices t) }

/-- Modelled from the spec: Open3D's `remove_duplicated_triangles`
(called at `registration2.py:400`): drop repeated triangles, keeping the
first occurrence of each. -/
def remove_duplicated_triangles (m : Mesh) : Mesh :=
  { vertices := m.vertices, triangles := m.triangles.dedup }

/-- Position of the first occurrence of a point in a list. -/
def idxOfP (l : List Pt) (x : Pt) : Nat :=
  l.findIdx (fun y => decide (y = x))

/-- Index remapping after vertex deduplication: an old index is sent to
the position of its vertex in the deduplicated vertex list. -/
def remapVertex (vs vs2 : List Pt) (i : Nat) : Nat :=
  idxOfP vs2 (vs.getD i (0, 0, 0))

/-- Modelled from the spec: Open3D's `remove_duplicated_vertices`
(called at `registration2.py:401`): merge vertices at identical
positions and remap triangle indices accordingly (spec §3: the cleaned
mesh has "no duplicated vertices"). -/
def remove_duplicated_vertices (m : Mesh) : Mesh :=
  let vs2 := m.vertices.dedup
  { vertices := vs2
    triangles := m.triangles.map (fun t =>
      (remapVertex m.vertices vs2 t.1,
       remapVertex m.vertices vs2 t.2.1,
       remapVertex m.vertices vs2 t.2.2)) }

/-- The three undirected edges of a triangle, each normalized as an
ordered index pair. -/
def triEdges (t : Nat × Nat × Nat) : List (Nat × Nat) :=
  [(min t.1 t.2.1, max t.1 t.2.1),
   (min t.2.1 t.2.2, max t.2.1 t.2.2),
   (min t.1 t.2.2, max t.1 t.2.2)]

/-- Number of triangles of the list incident to a given undirected
edge. -/
def edgeCount (tris : List (Nat × Nat × Nat)) (e : Nat × Nat) : Nat :=
  tris.countP (fun t => decide (e ∈ triEdges t))

/-- Modelled from the spec: Open3D's `remove_non_manifold_edges` (called
at `registration2.py:402`): an edge shared by more than two triangles is
non-manifold; triangles carrying such an edge are dropped, vertices kept. -/
def remove_non_manifold_edges (m : Mesh) : Mesh :=
  { vertices := m.vertices
    triangles := m.triangles.filter (fun t =>
      (triEdges t).all (fun e => decide (edgeCount m.triangles e ≤ 2))) }

/-- The mesh-cleanup sequence exactly as `create_mesh_from_point_cloud`
performs it (`registration2.py:398-402`, identically
`point_cloud_to_mesh.py:49-53`): degenerate triangles, duplicated
triangles, duplicated vertices, non-manifold edges, in that order. -/
def cleanupMesh (m : Mesh) : Mesh :=
  remove_non_manifold_edges
    (remove_duplicated_vertices
      (remove_duplicated_triangles
        (remove_degenerate_triangles m)))

/-- Every triangle's indices point into the vertex list. -/
def meshValid (m : Mesh) : Prop :=
  ∀ t ∈ m.triangles,
    t.1 < m.vertices.length ∧ t.2.1 < m.vertices.length ∧ t.2.2 < m.vertices.length

/-- A raw evaluation reporting perfect alignment (fitness 1, RMSE 0). -/
def evGood : RawEval := { fitness := 1, inlier_rmse := 0, corr := 1 }

/-- A raw evaluation reporting failed alignment (fitness 0, RMSE 1). -/
def evBad : RawEval := { fitness := 0, inlier_rmse := 1, corr := 0 }

/-- Concrete fusion oracles over integer-token clouds (`List ℤ`) and
scalar stand-in transforms (`ℤ`, composed additively), used to evaluate
the fusion-loop model on concrete inputs.  The evaluation oracle reports
fitness 1 with inlier RMSE 1/2 for every pair, and the model diameter is
reported as 100. -/
def opsC1 : FusionOps (List ℤ) ℤ where
  applyT t c := c.map (fun x => x + t)
  addC a b := a ++ b
  downsample c _ := c
  removeOutlier20 c := c
  diam _ := 100
  evalO _ _ _ _ := some { fitness := 1, inlier_rmse := 1 / 2, corr := 1 }
  matMul a b := a + b
  matInv t := some (-t)
  powSixthRoot t := t
  powNat t n := t * (n : ℤ)
  nonEmpty _ := true
  estimateNormals c _ := c
  orientNormals c := c

/-- A registration stand-in that always returns the transform 7. -/
def msIcpConst7 : List ℤ → List ℤ → Option ℤ := fun _ _ => some 7

/-- Fusion oracles whose evaluation always reports failed alignment. -/
def opsC2 : FusionOps (List ℤ) ℤ :=
  { opsC1 with diam := fun _ => 1, evalO := fun _ _ _ _ => some evBad }

/-- Trivial preprocessing oracle over unit clouds/features. -/
def preC3 : Unit → ℚ → Option (Unit × Unit) := fun _ _ => some ((), ())

/-- Global-registration oracle that always fails (exception path). -/
def globC3 : Unit → Unit → Unit → Unit → ℚ → Option Mat4 := fun _ _ _ _ _ => none

/-- A transformation matrix containing a +Inf entry but no NaN. -/
def badMat : Mat4 :=
  [[FVal.pinf, FVal.fin 0, FVal.fin 0, FVal.fin 0],
   [FVal.fin 0, FVal.fin 1, FVal.fin 0, FVal.fin 0],
   [FVal.fin 0, FVal.fin 0, FVal.fin 1, FVal.fin 0],
   [FVal.fin 0, FVal.fin 0, FVal.fin 0, FVal.fin 1]]

/-- Refinement oracle that always returns `badMat`. -/
def refC3 : Unit → Unit → Mat4 → ℚ → Option Mat4 := fun _ _ _ _ => some badMat

/-- Fusion oracles where consolidation is observable: downsampling
prepends the marker token 99; the gate passes only for the cloud `[4]`. -/
def opsC4a : FusionOps (List ℤ) ℤ :=
  { opsC1 with
    diam := fun _ => 1
    downsample := fun c _ => 99 :: c
    evalO := fun s _ _ _ => if s = [4] then some evGood else some evBad }

/-- Fusion oracles where consolidation is observable and the gate fails
only for the cloud `[4]`. -/
def opsC4b : FusionOps (List ℤ) ℤ :=
  { opsC1 with
    diam := fun _ => 1
    downsample := fun c _ => 99 :: c
    evalO := fun s _ _ _ => if s = [4] then some evBad else some evGood }

/-- Fusion oracles where consolidation is observable and the gate always
passes. -/
def opsC4c : FusionOps (List ℤ) ℤ :=
  { opsC1 with
    diam := fun _ => 1
    downsample := fun c _ => 99 :: c
    evalO := fun _ _ _ _ => some evGood }

/-- Preprocessing oracle for integer-token clouds. -/
def preC5 : List ℤ → ℚ → Option (List ℤ × Unit) := fun c _ => some (c, ())

/-- Global-registration oracle returning the transform 7. -/
def globC5 : List ℤ → List ℤ → Unit → Unit → ℚ → Option ℤ := fun _ _ _ _ _ => some 7

/-- Refinement oracle that keeps the incoming transform. -/
def refC5 : List ℤ → List ℤ → ℤ → ℚ → Option ℤ := fun _ _ cur _ => some cur

/-- Fusion oracles for the loop-closure scenario: the gate fails exactly
for the cloud `[5]`, every other evaluation is perfect. -/
def opsC5 : FusionOps (List ℤ) ℤ :=
  { opsC1 with
    diam := fun _ => 1
    evalO := fun s _ _ _ => if s = [5] then some evBad else some evGood }

/-- Twelve single-token clouds: more than 10 valid clouds, so loop
closure is attempted. -/
def cloudsC5 : List (List ℤ) :=
  [[0], [1], [2], [3], [4], [5], [6], [7], [8], [9], [10], [11]]

/-- The multi-scale registration function as `incremental_registration`
instantiates it in the loop-closure scenario. -/
def msIcpC5 : List ℤ → List ℤ → Option ℤ := fun a b =>
  multi_scale_icp preC5 globC5 refC5 0 (fun _ => false) (some a) (some b) [1 * 4, 1 * 2, 1]

/-- The merged model at the end of the accumulation phase of the
loop-closure scenario (the model loop closure is specified to retain on
failure). -/
def uncorrectedC5 : List ℤ :=
  (fuseLoop msIcpC5 opsC5 1 4 1 { merged := [0], transformations := [0] }
    (cloudsC5.drop 1)).merged

/-- Diameter oracle over unit clouds. -/
def diamC9 : Unit → ℚ := fun _ => 1

/-- Evaluation oracle over unit clouds reporting perfect alignment. -/
def evalC9 : Unit → Unit → ℚ → ℤ → Option RawEval := fun _ _ _ _ => some evGood

/-- A small mesh with one duplicated vertex position (indices 0 and 3),
one duplicated triangle and one zero-area triangle. -/
def meshW : Mesh :=
  { vertices := [(0, 0, 0), (1, 0, 0), (0, 1, 0), (0, 0, 0)]
    triangles := [(0, 1, 2), (3, 1, 2), (0, 0, 1), (0, 1, 2)] }

/-- Three sample points, two of which share a voxel at edge length 1. -/
def ptsC7 : List Pt :=
  [(0, 0, 0), (1 / 2, 1 / 2, 0), (3, 4, 5), (1 / 4, 3 / 4, 0)]

/-- If every element of a list is at least `a`, the sum is at least
`length · a`. -/
theorem length_mul_le_listSum (l : List ℚ) (a : ℚ) (h : ∀ x ∈ l, a ≤ x) :
    (l.length : ℚ) * a ≤ l.sum := by
  induction l with
  | nil => simp
  | cons x xs ih =>
    have hx : a ≤ x := h x (List.mem_cons_self x xs)
    have hxs : (xs.length : ℚ) * a ≤ xs.sum :=
      ih (fun y hy => h y (List.mem_cons_of_mem x hy))
    simp only [List.sum_cons, List.length_cons]
    push_cast
    nlinarith

/-- If every element of a nonempty list is below `b`, the sum is below
`length · b`. -/
theorem listSum_lt_length_mul (l : List ℚ) (b : ℚ) (hne : l ≠ []) (h : ∀ x ∈ l, x < b) :
    l.sum < (l.length : ℚ) * b := by
  induction l with
  | nil => exact absurd rfl hne
  | cons x xs ih =>
    have hx : x < b := h x (List.mem_cons_self x xs)
    by_cases hxs : xs = []
    · subst hxs; simpa using hx
    · have hs : xs.sum < (xs.length : ℚ) * b :=
        ih hxs (fun y hy => h y (List.mem_cons_of_mem x hy))
      simp only [List.sum_cons, List.length_cons]
      push_cast
      nlinarith

/-- The mean of a nonempty list is bounded below by any common lower
bound of its elements. -/
theorem le_listAvg (l : List ℚ) (a : ℚ) (hne : l ≠ []) (h : ∀ x ∈ l, a ≤ x) :
    a ≤ l.sum / (l.length : ℚ) := by
  have hlen : 0 < (l.length : ℚ) := by
    exact_mod_cast List.length_pos.mpr hne
  rw [le_div_iff₀ hlen]
  calc a * (l.length : ℚ) = (l.length : ℚ) * a := by ring
    _ ≤ l.sum := length_mul_le_listSum l a h

/-- The mean of a nonempty list is strictly below any common strict
upper bound of its elements. -/
theorem listAvg_lt (l : List ℚ) (b : ℚ) (hne : l ≠ []) (h : ∀ x ∈ l, x < b) :
    l.sum / (l.length : ℚ) < b := by
  have hlen : 0 < (l.length : ℚ) := by
    exact_mod_cast List.length_pos.mpr hne
  rw [div_lt_iff₀ hlen]
  calc l.sum < (l.length : ℚ) * b := listSum_lt_length_mul l b hne h
    _ = b * (l.length : ℚ) := by ring

/-- Characterization of the voxel coordinate of a scalar: `⌊x / s⌋ = k`
iff `x` lies in the half-open cell `[k·s, (k+1)·s)`, for `s > 0`. -/
theorem floor_div_eq_iff (s x : ℚ) (k : ℤ) (hs : 0 < s) :
    ⌊x / s⌋ = k ↔ ((k : ℚ) * s ≤ x ∧ x < ((k : ℚ) + 1) * s) := by
  rw [Int.floor_eq_iff, le_div_iff₀ hs, div_lt_iff₀ hs]

/-- The mean of scalars that all live in the cell of voxel coordinate
`k` lives in that same cell. -/
theorem floor_avg_eq (s : ℚ) (hs : 0 < s) (k : ℤ) (l : List ℚ) (hne : l ≠ [])
    (h : ∀ x ∈ l, ⌊x / s⌋ = k) : ⌊(l.sum / (l.length : ℚ)) / s⌋ = k := by
  rw [floor_div_eq_iff _ _ _ hs]
  constructor
  · exact le_listAvg l ((k : ℚ) * s) hne
      (fun x hx => ((floor_div_eq_iff s x k hs).mp (h x hx)).1)
  · exact listAvg_lt l (((k : ℚ) + 1) * s) hne
      (fun x hx => ((floor_div_eq_iff s x k hs).mp (h x hx)).2)

/-- The centroid of a nonempty set of points that all share the voxel of
index `k` lies in that same voxel. -/
theorem voxelIdx_centroid (s : ℚ) (hs : 0 < s) (k : ℤ × ℤ × ℤ) (l : List Pt)
    (hne : l ≠ []) (h : ∀ p ∈ l, voxelIdx s p = k) :
    voxelIdx s (centroid l) = k := by
  obtain ⟨k1, k2, k3⟩ := k
  have hmapne : ∀ f : Pt → ℚ, l.map f ≠ [] := fun f => by
    simpa using hne
  have hlen : ∀ f : Pt → ℚ, ((l.map f).length : ℚ) = (l.length : ℚ) := fun f => by
    rw [List.length_map]
  have comp : ∀ (f : Pt → ℚ) (kk : ℤ), (∀ p ∈ l, ⌊f p / s⌋ = kk) →
      ⌊((l.map f).sum / (l.length : ℚ)) / s⌋ = kk := by
    intro f kk hf
    have := floor_avg_eq s hs kk (l.map f) (hmapne f) (by
      intro x hx
      obtain ⟨p, hp, rfl⟩ := List.mem_map.mp hx
      exact hf p hp)
    rwa [hlen f] at this
  simp only [voxelIdx, centroid, Prod.mk.injEq]
  refine ⟨?_, ?_, ?_⟩
  · exact comp (fun p => p.1) k1 (fun p hp => congrArg (fun q => q.1) (h p hp))
  · exact comp (fun p => p.2.1) k2 (fun p hp => congrArg (fun q => q.2.1) (h p hp))
  · exact comp (fun p => p.2.2) k3 (fun p hp => congrArg (fun q => q.2.2) (h p hp))

/-- Filtering a duplicate-free list for one of its members yields
exactly that member. -/
theorem nodup_filter_eq_singleton {β : Type} [DecidableEq β] (l : List β) (a : β)
    (hnd : l.Nodup) (ha : a ∈ l) :
    l.filter (fun x => decide (x = a)) = [a] := by
  induction l with
  | nil => cases ha
  | cons x xs ih =>
    rw [List.filter_cons]
    rcases List.mem_cons.mp ha with h1 | h2
    · subst h1
      simp only [decide_eq_true_eq]
      rw [if_pos trivial]
      have hx : a ∉ xs := (List.nodup_cons.mp hnd).1
      have : xs.filter (fun y => decide (y = a)) = [] :=
        List.filter_eq_nil_iff.mpr (fun y hy hya => by
          rw [decide_eq_true_eq] at hya
          exact hx (hya ▸ hy))
      rw [this]
    · have hx : x ∉ xs := (List.nodup_cons.mp hnd).1
      have hxa : ¬(x = a) := fun hxa => hx (hxa ▸ h2)
      simp only [decide_eq_true_eq]
      rw [if_neg hxa]
      exact ih (List.nodup_cons.mp hnd).2 h2

/-- The centroid of a single point is that point. -/
theorem centroid_singleton (p : Pt) : centroid [p] = p := by
  simp [centroid]

/-- Every occupied voxel index has a nonempty member group, and every
member of the group carries that index. -/
theorem group_facts (s : ℚ) (pts : List Pt) (k : ℤ × ℤ × ℤ)
    (hk : k ∈ (pts.map (voxelIdx s)).dedup) :
    pts.filter (fun p => decide (voxelIdx s p = k)) ≠ [] ∧
    ∀ p ∈ pts.filter (fun p => decide (voxelIdx s p = k)), voxelIdx s p = k := by
  have hk2 : k ∈ pts.map (voxelIdx s) := List.mem_dedup.mp hk
  obtain ⟨p, hp, hpk⟩ := List.mem_map.mp hk2
  constructor
  · intro hemp
    have : p ∈ pts.filter (fun q => decide (voxelIdx s q = k)) :=
      List.mem_filter.mpr ⟨hp, by rw [decide_eq_true_eq]; exact hpk⟩
    rw [hemp] at this
    cases this
  · intro q hq
    exact decide_eq_true_eq.mp (List.mem_filter.mp hq).2

/-- Each point produced by voxel downsampling carries the voxel index of
its group: mapping `voxelIdx` over the output reproduces the
deduplicated index list. -/
theorem vds_map_voxelIdx (s : ℚ) (hs : 0 < s) (pts : List Pt) :
    (voxel_down_sample s pts).map (voxelIdx s) = (pts.map (voxelIdx s)).dedup := by
  unfold voxel_down_sample
  rw [List.map_map]
  have : ∀ k ∈ (pts.map (voxelIdx s)).dedup,
      (voxelIdx s ∘ fun k => centroid (pts.filter (fun p => decide (voxelIdx s p = k)))) k
        = id k := by
    intro k hk
    obtain ⟨hne, hmem⟩ := group_facts s pts k hk
    exact voxelIdx_centroid s hs k _ hne hmem
  rw [List.map_congr_left this, List.map_id]

/-- C7: voxel downsampling is idempotent — for every point cloud and
every voxel_size > 0, downsampling a cloud already downsampled at that
voxel size yields the unchanged point set.  Each output point is the
centroid of a voxel's members, hence lies in that same voxel; on the
second pass every voxel holds exactly one point and the centroid of a
singleton is the point itself. -/
theorem c7_voxel_downsample_idempotent (pts : List Pt) (s : ℚ) (hs : 0 < s) :
    voxel_down_sample s (voxel_down_sample s pts) = voxel_down_sample s pts := by
  have hout : voxel_down_sample s pts =
      ((pts.map (voxelIdx s)).dedup).map
        (fun k => centroid (pts.filter (fun p => decide (voxelIdx s p = k)))) := rfl
  have hout2 : voxel_down_sample s (voxel_down_sample s pts) =
      (((voxel_down_sample s pts).map (voxelIdx s)).dedup).map
        (fun k => centroid ((voxel_down_sample s pts).filter
          (fun p => decide (voxelIdx s p = k)))) := rfl
  have hmap := vds_map_voxelIdx s hs pts
  have hnd : ((pts.map (voxelIdx s)).dedup).Nodup := List.nodup_dedup _
  rw [hout2, hmap, List.dedup_eq_self.mpr hnd]
  conv_rhs => rw [hout]
  apply List.map_congr_left
  intro k hk
  have hfil : (voxel_down_sample s pts).filter (fun p => decide (voxelIdx s p = k)) =
      [centroid (pts.filter (fun p => decide (voxelIdx s p = k)))] := by
    rw [hout, List.filter_map]
    have hcongr : ∀ j ∈ (pts.map (voxelIdx s)).dedup,
        ((fun p => decide (voxelIdx s p = k)) ∘
          (fun k2 => centroid (pts.filter (fun p => decide (voxelIdx s p = k2))))) j
          = (fun j => decide (j = k)) j := by
      intro j hj
      obtain ⟨hne, hmem⟩ := group_facts s pts j hj
      simp only [Function.comp_apply]
      rw [voxelIdx_centroid s hs j _ hne hmem]
    rw [List.filter_congr hcongr, nodup_filter_eq_singleton _ k hnd hk]
    rfl
  rw [hfil, centroid_singleton]

/-- Witness for C7 at a concrete cloud and voxel size 1. -/
theorem c7_voxel_downsample_idempotent_witness :
    (0 : ℚ) < 1 ∧
    voxel_down_sample 1 (voxel_down_sample 1 ptsC7) = voxel_down_sample 1 ptsC7 :=
  ⟨by norm_num, c7_voxel_downsample_idempotent ptsC7 1 (by norm_num)⟩

/-- C6: a depth sample is valid exactly when it lies strictly inside
`(0, depth_trunc · depth_scale)`, and point-cloud construction returns
the empty signal (`none`) exactly when fewer than 100 samples are valid
— on every other input it returns a fully built cloud, never a partial
one. -/
theorem c6_depth_validity_gate {Cloud : Type} (buildCloud : List ℚ → Cloud)
    (countPoints : Cloud → Nat) (removeOutlier : Cloud → Nat → Cloud)
    (depth_map : List ℚ) (depth_scale depth_trunc : ℚ) :
    (∀ d : ℚ, validDepth depth_scale depth_trunc d = true ↔
      (0 < d ∧ d < depth_trunc * depth_scale)) ∧
    (create_point_cloud buildCloud countPoints removeOutlier depth_map depth_scale
        depth_trunc = none ↔
      (depth_map.countP (fun d => validDepth depth_scale depth_trunc d)) < 100) := by
  constructor
  · intro d
    simp [validDepth]
  · constructor
    · intro hc
      by_contra hlt
      simp only [create_point_cloud, if_neg hlt] at hc
      split at hc <;> simp_all
    · intro hlt
      simp [create_point_cloud, hlt]

/-- C8: fusing the empty sequence yields the empty signal, and fusing a
single-cloud sequence returns exactly that cloud (`registration2.py:242-243`). -/
theorem c8_trivial_sequences {α Feat T : Type} [DecidableEq T]
    (preprocess : α → ℚ → Option (α × Feat))
    (globalReg : α → α → Feat → Feat → ℚ → Option T)
    (refine : α → α → T → ℚ → Option T)
    (ident : T) (anyNaN : T → Bool) (ops : FusionOps α T)
    (p : α) (voxel_size : ℚ) (batch_size : Nat) :
    incremental_registration preprocess globalReg refine ident anyNaN ops []
        voxel_size batch_size = none ∧
    incremental_registration preprocess globalReg refine ident anyNaN ops [p]
        voxel_size batch_size = some p :=
  ⟨rfl, rfl⟩

/-- Counterexample to C9: the `None`-input return path of the
registration-quality evaluation carries no success field at all (the
dictionary of `registration2.py:212` has only three keys), refuting
"never absent on every return path". -/
theorem c9_counterexample :
    (evaluate_registration diamC9 evalC9 none (some ()) (0 : ℤ) 1).success = none := rfl

/-- C9 (amended): on the non-`None` return paths of the
registration-quality evaluation the success field is always present and
explicitly computed — from the fitness/RMSE thresholds on the normal
path, and as `False` on the exception path; the `None`-input path alone
returns a result without the field. -/
theorem c9_success_field_amended {Cloud T : Type} (diam : Cloud → ℚ)
    (evalO : Cloud → Cloud → ℚ → T → Option RawEval)
    (s t : Cloud) (tr : T) (thr : ℚ) :
    ((evaluate_registration diam evalO (some s) (some t) tr thr).success).isSome = true ∧
    (∀ ev : RawEval, evalO s t (min thr (diam s * (1 / 100))) tr = some ev →
      (evaluate_registration diam evalO (some s) (some t) tr thr).success
        = some (decide (ev.fitness > 3 / 10 ∧
            ev.inlier_rmse < min thr (diam s * (1 / 100)) * 2))) ∧
    (evalO s t (min thr (diam s * (1 / 100))) tr = none →
      (evaluate_registration diam evalO (some s) (some t) tr thr).success = some false) := by
  have hred : evaluate_registration diam evalO (some s) (some t) tr thr =
      match evalO s t (min thr (diam s * (1 / 100))) tr with
      | some ev =>
        { fitness := ev.fitness, inlier_rmse := FVal.fin ev.inlier_rmse,
          correspondence_set := ev.corr,
          success := some (decide (ev.fitness > 3 / 10 ∧
            ev.inlier_rmse < min thr (diam s * (1 / 100)) * 2)) }
      | none =>
        { fitness := 0, inlier_rmse := FVal.pinf, correspondence_set := 0,
          success := some false } := rfl
  refine ⟨?_, ?_, ?_⟩
  · cases hev : evalO s t (min thr (diam s * (1 / 100))) tr <;> rw [hred, hev] <;> rfl
  · intro ev hev
    rw [hred, hev]
  · intro hev
    rw [hred, hev]

/-- Witness for the amended C9 at concrete oracles: the success field is
present and true. -/
theorem c9_success_field_amended_witness :
    (evaluate_registration diamC9 evalC9 (some ()) (some ()) (0 : ℤ) 1).success
      = some true := by
  have h := (c9_success_field_amended diamC9 evalC9 () () (0 : ℤ) 1).2.1 evGood rfl
  have hp : evGood.fitness > 3 / 10 ∧
      evGood.inlier_rmse < min (1 : ℚ) (diamC9 () * (1 / 100)) * 2 := by
    have hmin : min (1 : ℚ) (diamC9 () * (1 / 100)) = 1 / 100 := by
      rw [show diamC9 () * (1 / 100) = (1 / 100 : ℚ) by norm_num [diamC9]]
      exact min_eq_right (by norm_num)
    rw [hmin]
    constructor <;> norm_num [evGood]
  rw [h, decide_eq_true hp]

/-- Counterexample to C3: with a refinement kernel whose result carries
a +Inf entry, `multi_scale_icp` returns that matrix unchanged — the
final check of `registration2.py:201` tests only `np.isnan`, so an
Inf-carrying transform is propagated. -/
theorem c3_counterexample :
    multi_scale_icp preC3 globC3 refC3 identity4 mat4AnyNaN (some ()) (some ()) [1]
        = some badMat ∧
    mat4AnyInf badMat = true := by
  constructor
  · decide
  · decide

/-- C3 (amended): for every pair of non-`None` input clouds and every
kernel behaviour, the transform returned by `multi_scale_icp` never
contains NaN — a NaN-carrying final transformation is replaced by the
identity.  (Inf entries are not checked and pass through.) -/
theorem c3_nan_guard_amended {Cloud Feat : Type}
    (preprocess : Cloud → ℚ → Option (Cloud × Feat))
    (globalReg : Cloud → Cloud → Feat → Feat → ℚ → Option Mat4)
    (refine : Cloud → Cloud → Mat4 → ℚ → Option Mat4)
    (source target : Option Cloud) (voxel_sizes : List ℚ) (m : Mat4)
    (h : multi_scale_icp preprocess globalReg refine identity4 mat4AnyNaN source target
        voxel_sizes = some m) :
    mat4AnyNaN m = false := by
  cases source with
  | none => simp [multi_scale_icp] at h
  | some s =>
    cases target with
    | none => simp [multi_scale_icp] at h
    | some t =>
      simp only [multi_scale_icp] at h
      split at h
      · obtain rfl : identity4 = m := Option.some.inj h
        decide
      · next hn =>
        obtain rfl := Option.some.inj h
        simpa using hn

/-- Witness for the amended C3 at concrete kernels returning an
Inf-carrying matrix. -/
theorem c3_nan_guard_amended_witness : mat4AnyNaN badMat = false :=
  c3_nan_guard_amended preC3 globC3 refC3 (some ()) (some ()) [1] badMat (by decide)

/-- Reduction of `evaluate_registration` when both clouds are present. -/
theorem evaluate_registration_some_eq {Cloud T : Type} (diam : Cloud → ℚ)
    (evalO : Cloud → Cloud → ℚ → T → Option RawEval) (s t : Cloud) (tr : T) (thr : ℚ) :
    evaluate_registration diam evalO (some s) (some t) tr thr =
      match evalO s t (min thr (diam s * (1 / 100))) tr with
      | some ev =>
        { fitness := ev.fitness, inlier_rmse := FVal.fin ev.inlier_rmse,
          correspondence_set := ev.corr,
          success := some (decide (ev.fitness > 3 / 10 ∧
            ev.inlier_rmse < min thr (diam s * (1 / 100)) * 2)) }
      | none =>
        { fitness := 0, inlier_rmse := FVal.pinf, correspondence_set := 0,
          success := some false } := rfl

/-- Reduction of one fusion step when registration returns a transform. -/
theorem fuseStep_some {α T : Type} (msIcp : α → α → Option T) (ops : FusionOps α T)
    (voxel_size : ℚ) (batch_size : Nat) (i : Nat) (current_pcd : α)
    (st : FuseState α T) (tr : T) (hms : msIcp current_pcd st.merged = some tr) :
    fuseStep msIcp ops voxel_size batch_size i current_pcd st =
      if (evaluate_registration ops.diam ops.evalO (some current_pcd) (some st.merged) tr
          (voxel_size * 2)).success = some true then
        { merged :=
            if i % batch_size = 0 then
              ops.removeOutlier20 (ops.downsample
                (ops.addC st.merged (ops.applyT tr current_pcd)) voxel_size)
            else ops.addC st.merged (ops.applyT tr current_pcd),
          transformations := st.transformations ++ [tr] }
      else st := by
  unfold fuseStep
  rw [hms]

/-- The quality gate passes when the evaluation kernel reports a result
with fitness above 3/10 and inlier RMSE below 1/50, for a model of unit
diameter and threshold argument `1 * 2`. -/
theorem eval_success_unit_diam {α T : Type} (ops : FusionOps α T) (c m : α) (tr : T)
    (ev : RawEval) (hdiam : ops.diam c = 1)
    (hev : ops.evalO c m (min ((1 : ℚ) * 2) (ops.diam c * (1 / 100))) tr = some ev)
    (hfit : ev.fitness > 3 / 10) (hrmse : ev.inlier_rmse < 1 / 50) :
    (evaluate_registration ops.diam ops.evalO (some c) (some m) tr ((1 : ℚ) * 2)).success
      = some true := by
  rw [evaluate_registration_some_eq, hev]
  show some (decide (ev.fitness > 3 / 10 ∧
    ev.inlier_rmse < min ((1 : ℚ) * 2) (ops.diam c * (1 / 100)) * 2)) = some true
  have hmin : min ((1 : ℚ) * 2) (ops.diam c * (1 / 100)) = 1 / 100 := by
    rw [hdiam, show ((1 : ℚ) * (1 / 100)) = 1 / 100 by norm_num,
      show ((1 : ℚ) * 2) = 2 by norm_num]
    exact min_eq_right (by norm_num)
  have hP : ev.fitness > 3 / 10 ∧
      ev.inlier_rmse < min ((1 : ℚ) * 2) (ops.diam c * (1 / 100)) * 2 := by
    refine ⟨hfit, ?_⟩
    rw [hmin, show ((1 : ℚ) / 100) * 2 = 1 / 50 by norm_num]
    exact hrmse
  rw [decide_eq_true hP]

/-- The quality gate fails when the evaluation kernel reports fitness
not above 3/10, for threshold argument `1 * 2`. -/
theorem eval_fail_low_fitness {α T : Type} (ops : FusionOps α T) (c m : α) (tr : T)
    (ev : RawEval)
    (hev : ops.evalO c m (min ((1 : ℚ) * 2) (ops.diam c * (1 / 100))) tr = some ev)
    (hfit : ¬(ev.fitness > 3 / 10)) :
    (evaluate_registration ops.diam ops.evalO (some c) (some m) tr ((1 : ℚ) * 2)).success
      ≠ some true := by
  rw [evaluate_registration_some_eq, hev]
  intro hcontra
  have h2 : decide (ev.fitness > 3 / 10 ∧
      ev.inlier_rmse < min ((1 : ℚ) * 2) (ops.diam c * (1 / 100)) * 2) = true :=
    Option.some.inj hcontra
  rw [decide_eq_true_eq] at h2
  exact hfit h2.1

/-- C2: a frame whose multi-scale registration returns no transform, or
whose quality gate does not pass, is skipped atomically: the fusion
state (merged model and recorded transforms) is left exactly unchanged
and the loop proceeds to the remaining frames. -/
theorem c2_failed_frame_atomic {α T : Type} (msIcp : α → α → Option T)
    (ops : FusionOps α T) (voxel_size : ℚ) (batch_size i : Nat)
    (current_pcd : α) (st : FuseState α T)
    (h : msIcp current_pcd st.merged = none ∨
      ∃ tr, msIcp current_pcd st.merged = some tr ∧
        (evaluate_registration ops.diam ops.evalO (some current_pcd) (some st.merged) tr
          (voxel_size * 2)).success ≠ some true) :
    fuseStep msIcp ops voxel_size batch_size i current_pcd st = st ∧
    ∀ rest : List α,
      fuseLoop msIcp ops voxel_size batch_size i st (current_pcd :: rest)
        = fuseLoop msIcp ops voxel_size batch_size (i + 1) st rest := by
  have hstep : fuseStep msIcp ops voxel_size batch_size i current_pcd st = st := by
    rcases h with hnone | ⟨tr, htr, hfail⟩
    · unfold fuseStep
      rw [hnone]
    · rw [fuseStep_some msIcp ops voxel_size batch_size i current_pcd st tr htr,
        if_neg hfail]
  refine ⟨hstep, fun rest => ?_⟩
  show fuseLoop msIcp ops voxel_size batch_size (i + 1)
      (fuseStep msIcp ops voxel_size batch_size i current_pcd st) rest = _
  rw [hstep]

/-- Witness for C2 at a concrete failing frame. -/
theorem c2_failed_frame_atomic_witness :
    fuseStep msIcpConst7 opsC2 1 4 1 [3] { merged := [0], transformations := [0] }
        = { merged := [0], transformations := [0] } ∧
    fuseLoop msIcpConst7 opsC2 1 4 1 { merged := [0], transformations := [0] } ([3] :: [[9]])
      = fuseLoop msIcpConst7 opsC2 1 4 2 { merged := [0], transformations := [0] } [[9]] := by
  have hfail : (evaluate_registration opsC2.diam opsC2.evalO (some [3]) (some [0]) 7
      ((1 : ℚ) * 2)).success ≠ some true :=
    eval_fail_low_fitness opsC2 [3] [0] 7 evBad rfl
      (by rw [show evBad.fitness = 0 from rfl]; norm_num)
  have h := c2_failed_frame_atomic msIcpConst7 opsC2 1 4 1 [3]
    { merged := [0], transformations := [0] } (Or.inr ⟨7, rfl, hfail⟩)
  exact ⟨h.1, h.2 [[9]]⟩

/-- Counterexample to C1: in the fusion loop the evaluation threshold is
`voxel_size * 2`, not 0.02 — with `voxel_size = 1` and a source diameter
of 100, the code's adaptive threshold is `min(2, 1) = 1`, the gate
passes (RMSE 1/2 < 2) and the frame is appended, although
`min(0.02, 0.01·diameter) = 0.02` would reject it (1/2 is not below
0.04). -/
theorem c1_counterexample :
    (evaluate_registration opsC1.diam opsC1.evalO (some [3]) (some [0]) 7
        ((1 : ℚ) * 2)).success = some true ∧
    (fuseStep msIcpConst7 opsC1 1 4 1 [3]
        { merged := [0], transformations := [0] }).transformations = [0, 7] ∧
    ¬ ((1 : ℚ) / 2 < 2 * spec_adaptive_threshold (opsC1.diam [3])) := by
  have hd : opsC1.diam [3] = 100 := rfl
  have hmin : min ((1 : ℚ) * 2) (opsC1.diam [3] * (1 / 100)) = 1 := by
    rw [hd, show ((100 : ℚ) * (1 / 100)) = 1 by norm_num,
      show ((1 : ℚ) * 2) = 2 by norm_num]
    exact min_eq_right (by norm_num)
  have hsucc : (evaluate_registration opsC1.diam opsC1.evalO (some [3]) (some [0]) 7
      ((1 : ℚ) * 2)).success = some true := by
    rw [evaluate_registration_some_eq,
      show opsC1.evalO [3] [0] (min ((1 : ℚ) * 2) (opsC1.diam [3] * (1 / 100))) 7
        = some { fitness := 1, inlier_rmse := 1 / 2, corr := 1 } from rfl]
    show some (decide ((1 : ℚ) > 3 / 10 ∧
      (1 : ℚ) / 2 < min ((1 : ℚ) * 2) (opsC1.diam [3] * (1 / 100)) * 2)) = some true
    rw [decide_eq_true ⟨by norm_num, by rw [hmin]; norm_num⟩]
  refine ⟨hsucc, ?_, ?_⟩
  · rw [fuseStep_some msIcpConst7 opsC1 1 4 1 [3]
      { merged := [0], transformations := [0] } 7 rfl, if_pos hsucc]
    rfl
  · have hspec : spec_adaptive_threshold (opsC1.diam [3]) = 2 / 100 := by
      unfold spec_adaptive_threshold
      rw [hd, show ((100 : ℚ) * (1 / 100)) = 1 by norm_num]
      exact min_eq_left (by norm_num)
    rw [hspec]
    norm_num

/-- C1 (amended): for a frame whose registration returns a transform,
the fusion loop evaluates quality at threshold `voxel_size * 2`, so the
adaptive threshold is `min(2·voxel_size, 0.01·source_diameter)`, and the
frame is appended (its transform recorded) exactly when
`fitness > 0.3` and `inlier_rmse < 2·threshold` at that adaptive
threshold. -/
theorem c1_fusion_gate_amended {α T : Type} (msIcp : α → α → Option T)
    (ops : FusionOps α T) (voxel_size : ℚ) (batch_size i : Nat)
    (current_pcd : α) (st : FuseState α T) (tr : T) (ev : RawEval)
    (hms : msIcp current_pcd st.merged = some tr)
    (hev : ops.evalO current_pcd st.merged
      (min (voxel_size * 2) (ops.diam current_pcd * (1 / 100))) tr = some ev) :
    ((fuseStep msIcp ops voxel_size batch_size i current_pcd st).transformations
        = st.transformations ++ [tr]) ↔
      (ev.fitness > 3 / 10 ∧
        ev.inlier_rmse < min (voxel_size * 2) (ops.diam current_pcd * (1 / 100)) * 2) := by
  rw [fuseStep_some msIcp ops voxel_size batch_size i current_pcd st tr hms]
  have hsucc : (evaluate_registration ops.diam ops.evalO (some current_pcd)
      (some st.merged) tr (voxel_size * 2)).success
        = some (decide (ev.fitness > 3 / 10 ∧
          ev.inlier_rmse < min (voxel_size * 2) (ops.diam current_pcd * (1 / 100)) * 2)) := by
    rw [evaluate_registration_some_eq, hev]
  by_cases hP : (ev.fitness > 3 / 10 ∧
      ev.inlier_rmse < min (voxel_size * 2) (ops.diam current_pcd * (1 / 100)) * 2)
  · rw [if_pos (by rw [hsucc, decide_eq_true hP])]
    exact iff_of_true rfl hP
  · rw [if_neg (by rw [hsucc, decide_eq_false hP]; simp)]
    exact iff_of_false (fun hc => by simpa using congrArg List.length hc) hP

/-- Witness for the amended C1 at a concrete frame. -/
theorem c1_fusion_gate_amended_witness :
    ((fuseStep msIcpConst7 opsC1 1 4 1 [3]
        { merged := [0], transformations := [0] }).transformations = [0] ++ [7]) ↔
      ((1 : ℚ) > 3 / 10 ∧
        (1 : ℚ) / 2 < min ((1 : ℚ) * 2) (opsC1.diam [3] * (1 / 100)) * 2) :=
  c1_fusion_gate_amended msIcpConst7 opsC1 1 4 1 [3]
    { merged := [0], transformations := [0] } 7
    { fitness := 1, inlier_rmse := 1 / 2, corr := 1 } rfl rfl

/-- C4 (amended): when a frame's registration returns a transform and
the quality gate passes, the transform is recorded and the model is
consolidated exactly when the frame's index `i` in the valid sequence
satisfies `i % batch_size = 0` — the trigger is the frame's position
(gated on that frame's success), not the count of successful fusions. -/
theorem c4_consolidation_amended {α T : Type} (msIcp : α → α → Option T)
    (ops : FusionOps α T) (voxel_size : ℚ) (batch_size i : Nat)
    (current_pcd : α) (st : FuseState α T) (tr : T)
    (hms : msIcp current_pcd st.merged = some tr)
    (hsucc : (evaluate_registration ops.diam ops.evalO (some current_pcd) (some st.merged)
        tr (voxel_size * 2)).success = some true) :
    (fuseStep msIcp ops voxel_size batch_size i current_pcd st).merged =
      (if i % batch_size = 0 then
        ops.removeOutlier20 (ops.downsample
          (ops.addC st.merged (ops.applyT tr current_pcd)) voxel_size)
      else ops.addC st.merged (ops.applyT tr current_pcd)) ∧
    (fuseStep msIcp ops voxel_size batch_size i current_pcd st).transformations
      = st.transformations ++ [tr] := by
  rw [fuseStep_some msIcp ops voxel_size batch_size i current_pcd st tr hms, if_pos hsucc]
  exact ⟨rfl, rfl⟩

/-- Witness for the amended C4 at a concrete successful frame at
index 4. -/
theorem c4_consolidation_amended_witness :
    (fuseStep msIcpConst7 opsC4c 1 4 4 [4]
        { merged := [0], transformations := [0] }).merged =
      (if 4 % 4 = 0 then
        opsC4c.removeOutlier20 (opsC4c.downsample
          (opsC4c.addC [0] (opsC4c.applyT 7 [4])) 1)
      else opsC4c.addC [0] (opsC4c.applyT 7 [4])) ∧
    (fuseStep msIcpConst7 opsC4c 1 4 4 [4]
        { merged := [0], transformations := [0] }).transformations = [0] ++ [7] :=
  c4_consolidation_amended msIcpConst7 opsC4c 1 4 4 [4]
    { merged := [0], transformations := [0] } 7 rfl
    (eval_success_unit_diam opsC4c [4] [0] 7 evGood rfl rfl
      (by rw [show evGood.fitness = 1 from rfl]; norm_num)
      (by rw [show evGood.inlier_rmse = 0 from rfl]; norm_num))

/-- Counterexample to C4: consolidation is keyed to the frame's position
in the valid sequence, not to the count of successful fusions.  Run A
(gate passes only for the cloud `[4]`): frames 1-3 fail, frame 4
succeeds, and the model is consolidated (marker 99 prepended by the
downsample oracle) after a single successful fusion.  Run B (gate fails
only for `[4]`): frames 1, 2, 3 and 5 succeed — four successful fusions
— yet no consolidation ever happens (no marker in the result). -/
theorem c4_counterexample :
    (fuseLoop msIcpConst7 opsC4a 1 4 1 { merged := [0], transformations := [0] }
        [[1], [2], [3], [4]]
      = { merged := [99, 0, 11], transformations := [0, 7] }) ∧
    (fuseLoop msIcpConst7 opsC4b 1 4 1 { merged := [0], transformations := [0] }
        [[1], [2], [3], [4], [5]]
      = { merged := [0, 8, 9, 10, 12], transformations := [0, 7, 7, 7, 7] }) := by
  have hAbad : ∀ (c m : List ℤ), c ≠ [4] →
      (evaluate_registration opsC4a.diam opsC4a.evalO (some c) (some m) 7
        ((1 : ℚ) * 2)).success ≠ some true := fun c m hc =>
    eval_fail_low_fitness opsC4a c m 7 evBad
      (by show (if c = [4] then some evGood else some evBad) = some evBad
          rw [if_neg hc])
      (by rw [show evBad.fitness = 0 from rfl]; norm_num)
  have hAgood : ∀ m : List ℤ,
      (evaluate_registration opsC4a.diam opsC4a.evalO (some [4]) (some m) 7
        ((1 : ℚ) * 2)).success = some true := fun m =>
    eval_success_unit_diam opsC4a [4] m 7 evGood rfl rfl
      (by rw [show evGood.fitness = 1 from rfl]; norm_num)
      (by rw [show evGood.inlier_rmse = 0 from rfl]; norm_num)
  have hBgood : ∀ (c m : List ℤ), c ≠ [4] →
      (evaluate_registration opsC4b.diam opsC4b.evalO (some c) (some m) 7
        ((1 : ℚ) * 2)).success = some true := fun c m hc =>
    eval_success_unit_diam opsC4b c m 7 evGood rfl
      (by show (if c = [4] then some evBad else some evGood) = some evGood
          rw [if_neg hc])
      (by rw [show evGood.fitness = 1 from rfl]; norm_num)
      (by rw [show evGood.inlier_rmse = 0 from rfl]; norm_num)
  have hBbad : ∀ m : List ℤ,
      (evaluate_registration opsC4b.diam opsC4b.evalO (some [4]) (some m) 7
        ((1 : ℚ) * 2)).success ≠ some true := fun m =>
    eval_fail_low_fitness opsC4b [4] m 7 evBad rfl
      (by rw [show evBad.fitness = 0 from rfl]; norm_num)
  constructor
  · have a1 : fuseStep msIcpConst7 opsC4a 1 4 1 [1]
        { merged := [0], transformations := [0] }
        = { merged := [0], transformations := [0] } := by
      rw [fuseStep_some msIcpConst7 opsC4a 1 4 1 [1] _ 7 rfl,
        if_neg (hAbad [1] [0] (by decide))]
    have a2 : fuseStep msIcpConst7 opsC4a 1 4 2 [2]
        { merged := [0], transformations := [0] }
        = { merged := [0], transformations := [0] } := by
      rw [fuseStep_some msIcpConst7 opsC4a 1 4 2 [2] _ 7 rfl,
        if_neg (hAbad [2] [0] (by decide))]
    have a3 : fuseStep msIcpConst7 opsC4a 1 4 3 [3]
        { merged := [0], transformations := [0] }
        = { merged := [0], transformations := [0] } := by
      rw [fuseStep_some msIcpConst7 opsC4a 1 4 3 [3] _ 7 rfl,
        if_neg (hAbad [3] [0] (by decide))]
    have a4 : fuseStep msIcpConst7 opsC4a 1 4 4 [4]
        { merged := [0], transformations := [0] }
        = { merged := [99, 0, 11], transformations := [0, 7] } := by
      rw [fuseStep_some msIcpConst7 opsC4a 1 4 4 [4] _ 7 rfl, if_pos (hAgood [0])]
      rfl
    simp only [fuseLoop]
    rw [a1, a2, a3, a4]
  · have b1 : fuseStep msIcpConst7 opsC4b 1 4 1 [1]
        { merged := [0], transformations := [0] }
        = { merged := [0, 8], transformations := [0, 7] } := by
      rw [fuseStep_some msIcpConst7 opsC4b 1 4 1 [1] _ 7 rfl,
        if_pos (hBgood [1] [0] (by decide))]
      rfl
    have b2 : fuseStep msIcpConst7 opsC4b 1 4 2 [2]
        { merged := [0, 8], transformations := [0, 7] }
        = { merged := [0, 8, 9], transformations := [0, 7, 7] } := by
      rw [fuseStep_some msIcpConst7 opsC4b 1 4 2 [2] _ 7 rfl,
        if_pos (hBgood [2] [0, 8] (by decide))]
      rfl
    have b3 : fuseStep msIcpConst7 opsC4b 1 4 3 [3]
        { merged := [0, 8, 9], transformations := [0, 7, 7] }
        = { merged := [0, 8, 9, 10], transformations := [0, 7, 7, 7] } := by
      rw [fuseStep_some msIcpConst7 opsC4b 1 4 3 [3] _ 7 rfl,
        if_pos (hBgood [3] [0, 8, 9] (by decide))]
      rfl
    have b4 : fuseStep msIcpConst7 opsC4b 1 4 4 [4]
        { merged := [0, 8, 9, 10], transformations := [0, 7, 7, 7] }
        = { merged := [0, 8, 9, 10], transformations := [0, 7, 7, 7] } := by
      rw [fuseStep_some msIcpConst7 opsC4b 1 4 4 [4] _ 7 rfl,
        if_neg (hBbad [0, 8, 9, 10])]
    have b5 : fuseStep msIcpConst7 opsC4b 1 4 5 [5]
        { merged := [0, 8, 9, 10], transformations := [0, 7, 7, 7] }
        = { merged := [0, 8, 9, 10, 12], transformations := [0, 7, 7, 7, 7] } := by
      rw [fuseStep_some msIcpConst7 opsC4b 1 4 5 [5] _ 7 rfl,
        if_pos (hBgood [5] [0, 8, 9, 10] (by decide))]
      rfl
    simp only [fuseLoop]
    rw [b1, b2, b3, b4, b5]

/-- C5: loop closure is attempted for this 12-cloud sequence, its
quality gate passes, and the rebuild then indexes the transform list by
frame position although one frame (cloud `[5]`) was skipped during
accumulation — the list runs out one entry early, the `IndexError` is
caught by the `except` of `registration2.py:344`, and the PARTIALLY
rebuilt model is kept.  The pipeline's result is neither the corrected
rebuild of all frames nor the uncorrected model from the accumulation
phase, contradicting "on failure the uncorrected model is retained
unchanged". -/
theorem c5_loop_closure_partial_rebuild :
    incremental_registration preC5 globC5 refC5 0 (fun _ => false) opsC5 cloudsC5 1 4
        = some [0, 470, 933, 1396, 1859, 2322, 2785, 3248, 3711, 4174, 4637] ∧
    incremental_registration preC5 globC5 refC5 0 (fun _ => false) opsC5 cloudsC5 1 4
        ≠ some uncorrectedC5 := by
  have hgood5 : ∀ (c m : List ℤ), c ≠ [5] →
      (evaluate_registration opsC5.diam opsC5.evalO (some c) (some m) 7
        ((1 : ℚ) * 2)).success = some true := fun c m hc =>
    eval_success_unit_diam opsC5 c m 7 evGood rfl
      (by show (if c = [5] then some evBad else some evGood) = some evGood
          rw [if_neg hc])
      (by rw [show evGood.fitness = 1 from rfl]; norm_num)
      (by rw [show evGood.inlier_rmse = 0 from rfl]; norm_num)
  have hbad5 : ∀ m : List ℤ,
      (evaluate_registration opsC5.diam opsC5.evalO (some [5]) (some m) 7
        ((1 : ℚ) * 2)).success ≠ some true := fun m =>
    eval_fail_low_fitness opsC5 [5] m 7 evBad rfl
      (by rw [show evBad.fitness = 0 from rfl]; norm_num)
  have s1 : fuseStep msIcpC5 opsC5 1 4 1 [1] { merged := [0], transformations := [0] }
      = { merged := [0, 8], transformations := [0, 7] } := by
    rw [fuseStep_some msIcpC5 opsC5 1 4 1 [1] _ 7 rfl, if_pos (hgood5 [1] [0] (by decide))]
    rfl
  have s2 : fuseStep msIcpC5 opsC5 1 4 2 [2] { merged := [0, 8], transformations := [0, 7] }
      = { merged := [0, 8, 9], transformations := [0, 7, 7] } := by
    rw [fuseStep_some msIcpC5 opsC5 1 4 2 [2] _ 7 rfl,
      if_pos (hgood5 [2] [0, 8] (by decide))]
    rfl
  have s3 : fuseStep msIcpC5 opsC5 1 4 3 [3]
      { merged := [0, 8, 9], transformations := [0, 7, 7] }
      = { merged := [0, 8, 9, 10], transformations := [0, 7, 7, 7] } := by
    rw [fuseStep_some msIcpC5 opsC5 1 4 3 [3] _ 7 rfl,
      if_pos (hgood5 [3] [0, 8, 9] (by decide))]
    rfl
  have s4 : fuseStep msIcpC5 opsC5 1 4 4 [4]
      { merged := [0, 8, 9, 10], transformations := [0, 7, 7, 7] }
      = { merged := [0, 8, 9, 10, 11], transformations := [0, 7, 7, 7, 7] } := by
    rw [fuseStep_some msIcpC5 opsC5 1 4 4 [4] _ 7 rfl,
      if_pos (hgood5 [4] [0, 8, 9, 10] (by decide))]
    rfl
  have s5 : fuseStep msIcpC5 opsC5 1 4 5 [5]
      { merged := [0, 8, 9, 10, 11], transformations := [0, 7, 7, 7, 7] }
      = { merged := [0, 8, 9, 10, 11], transformations := [0, 7, 7, 7, 7] } := by
    rw [fuseStep_some msIcpC5 opsC5 1 4 5 [5] _ 7 rfl,
      if_neg (hbad5 [0, 8, 9, 10, 11])]
  have s6 : fuseStep msIcpC5 opsC5 1 4 6 [6]
      { merged := [0, 8, 9, 10, 11], transformations := [0, 7, 7, 7, 7] }
      = { merged := [0, 8, 9, 10, 11, 13], transformations := [0, 7, 7, 7, 7, 7] } := by
    rw [fuseStep_some msIcpC5 opsC5 1 4 6 [6] _ 7 rfl,
      if_pos (hgood5 [6] [0, 8, 9, 10, 11] (by decide))]
    rfl
  have s7 : fuseStep msIcpC5 opsC5 1 4 7 [7]
      { merged := [0, 8, 9, 10, 11, 13], transformations := [0, 7, 7, 7, 7, 7] }
      = { merged := [0, 8, 9, 10, 11, 13, 14],
          transformations := [0, 7, 7, 7, 7, 7, 7] } := by
    rw [fuseStep_some msIcpC5 opsC5 1 4 7 [7] _ 7 rfl,
      if_pos (hgood5 [7] [0, 8, 9, 10, 11, 13] (by decide))]
    rfl
  have s8 : fuseStep msIcpC5 opsC5 1 4 8 [8]
      { merged := [0, 8, 9, 10, 11, 13, 14], transformations := [0, 7, 7, 7, 7, 7, 7] }
      = { merged := [0, 8, 9, 10, 11, 13, 14, 15],
          transformations := [0, 7, 7, 7, 7, 7, 7, 7] } := by
    rw [fuseStep_some msIcpC5 opsC5 1 4 8 [8] _ 7 rfl,
      if_pos (hgood5 [8] [0, 8, 9, 10, 11, 13, 14] (by decide))]
    rfl
  have s9 : fuseStep msIcpC5 opsC5 1 4 9 [9]
      { merged := [0, 8, 9, 10, 11, 13, 14, 15],
        transformations := [0, 7, 7, 7, 7, 7, 7, 7] }
      = { merged := [0, 8, 9, 10, 11, 13, 14, 15, 16],
          transformations := [0, 7, 7, 7, 7, 7, 7, 7, 7] } := by
    rw [fuseStep_some msIcpC5 opsC5 1 4 9 [9] _ 7 rfl,
      if_pos (hgood5 [9] [0, 8, 9, 10, 11, 13, 14, 15] (by decide))]
    rfl
  have s10 : fuseStep msIcpC5 opsC5 1 4 10 [10]
      { merged := [0, 8, 9, 10, 11, 13, 14, 15, 16],
        transformations := [0, 7, 7, 7, 7, 7, 7, 7, 7] }
      = { merged := [0, 8, 9, 10, 11, 13, 14, 15, 16, 17],
          transformations := [0, 7, 7, 7, 7, 7, 7, 7, 7, 7] } := by
    rw [fuseStep_some msIcpC5 opsC5 1 4 10 [10] _ 7 rfl,
      if_pos (hgood5 [10] [0, 8, 9, 10, 11, 13, 14, 15, 16] (by decide))]
    rfl
  have s11 : fuseStep msIcpC5 opsC5 1 4 11 [11]
      { merged := [0, 8, 9, 10, 11, 13, 14, 15, 16, 17],
        transformations := [0, 7, 7, 7, 7, 7, 7, 7, 7, 7] }
      = { merged := [0, 8, 9, 10, 11, 13, 14, 15, 16, 17, 18],
          transformations := [0, 7, 7, 7, 7, 7, 7, 7, 7, 7, 7] } := by
    rw [fuseStep_some msIcpC5 opsC5 1 4 11 [11] _ 7 rfl,
      if_pos (hgood5 [11] [0, 8, 9, 10, 11, 13, 14, 15, 16, 17] (by decide))]
    rfl
  have hloop : fuseLoop msIcpC5 opsC5 1 4 1 { merged := [0], transformations := [0] }
      [[1], [2], [3], [4], [5], [6], [7], [8], [9], [10], [11]]
      = { merged := [0, 8, 9, 10, 11, 13, 14, 15, 16, 17, 18],
          transformations := [0, 7, 7, 7, 7, 7, 7, 7, 7, 7, 7] } := by
    simp only [fuseLoop]
    rw [s1, s2, s3, s4, s5, s6, s7, s8, s9, s10, s11]
  have hclosure : loopClosureStep msIcpC5 opsC5 0 1 [0] cloudsC5
      { merged := [0, 8, 9, 10, 11, 13, 14, 15, 16, 17, 18],
        transformations := [0, 7, 7, 7, 7, 7, 7, 7, 7, 7, 7] }
      = [0, 470, 933, 1396, 1859, 2322, 2785, 3248, 3711, 4174, 4637] := by
    rw [show loopClosureStep msIcpC5 opsC5 0 1 [0] cloudsC5
        { merged := [0, 8, 9, 10, 11, 13, 14, 15, 16, 17, 18],
          transformations := [0, 7, 7, 7, 7, 7, 7, 7, 7, 7, 7] }
        = (if (evaluate_registration opsC5.diam opsC5.evalO (some [81]) (some [0]) 7
              ((1 : ℚ) * 2)).success = some true then
            [0, 470, 933, 1396, 1859, 2322, 2785, 3248, 3711, 4174, 4637]
          else [0, 8, 9, 10, 11, 13, 14, 15, 16, 17, 18]) from rfl,
      if_pos (hgood5 [81] [0] (by decide))]
  have hmain : incremental_registration preC5 globC5 refC5 0 (fun _ => false) opsC5
      cloudsC5 1 4
      = some [0, 470, 933, 1396, 1859, 2322, 2785, 3248, 3711, 4174, 4637] := by
    rw [show incremental_registration preC5 globC5 refC5 0 (fun _ => false) opsC5
        cloudsC5 1 4
        = some (loopClosureStep msIcpC5 opsC5 0 1 [0] cloudsC5
            (fuseLoop msIcpC5 opsC5 1 4 1 { merged := [0], transformations := [0] }
              [[1], [2], [3], [4], [5], [6], [7], [8], [9], [10], [11]])) from rfl,
      hloop, hclosure]
  have huncorr : uncorrectedC5 = [0, 8, 9, 10, 11, 13, 14, 15, 16, 17, 18] := by
    unfold uncorrectedC5
    rw [show cloudsC5.drop 1
        = [[1], [2], [3], [4], [5], [6], [7], [8], [9], [10], [11]] from rfl, hloop]
  refine ⟨hmain, ?_⟩
  rw [hmain, huncorr]
  decide

/-- Reading a list at the first-occurrence index of one of its members
returns that member. -/
theorem idxOfP_getD (l : List Pt) (x d : Pt) (h : x ∈ l) :
    l.getD (idxOfP l x) d = x := by
  induction l with
  | nil => cases h
  | cons a as ih =>
    unfold idxOfP
    rw [List.findIdx_cons]
    by_cases hax : a = x
    · rw [show decide (a = x) = true from decide_eq_true hax]
      show (a :: as).getD 0 d = x
      simpa using hax
    · rw [show decide (a = x) = false from decide_eq_false hax]
      have hx : x ∈ as := by
        rcases List.mem_cons.mp h with h1 | h2
        · exact absurd h1.symm hax
        · exact h2
      show as.getD (as.findIdx (fun y => decide (y = x))) d = x
      exact ih hx

/-- Vertex deduplication with index remapping preserves the position a
valid index refers to. -/
theorem remap_pos (vs : List Pt) (i : Nat) (hi : i < vs.length) :
    (vs.dedup).getD (remapVertex vs vs.dedup i) (0, 0, 0) = vs.getD i (0, 0, 0) := by
  unfold remapVertex
  apply idxOfP_getD
  rw [List.mem_dedup, List.getD_eq_getElem vs _ hi]
  exact List.getElem_mem hi

/-- Vertex deduplication preserves the position triple of a valid
triangle. -/
theorem triPositions_remap (vs : List Pt) (t : Nat × Nat × Nat)
    (h1 : t.1 < vs.length) (h2 : t.2.1 < vs.length) (h3 : t.2.2 < vs.length) :
    triPositions vs.dedup
      (remapVertex vs vs.dedup t.1, remapVertex vs vs.dedup t.2.1,
        remapVertex vs vs.dedup t.2.2)
      = triPositions vs t := by
  show ((vs.dedup).getD (remapVertex vs vs.dedup t.1) (0, 0, 0),
        (vs.dedup).getD (remapVertex vs vs.dedup t.2.1) (0, 0, 0),
        (vs.dedup).getD (remapVertex vs vs.dedup t.2.2) (0, 0, 0))
      = (vs.getD t.1 (0, 0, 0), vs.getD t.2.1 (0, 0, 0), vs.getD t.2.2 (0, 0, 0))
  rw [remap_pos vs t.1 h1, remap_pos vs t.2.1 h2, remap_pos vs t.2.2 h3]

/-- Vertex deduplication preserves degeneracy of a valid triangle. -/
theorem triDegenerate_remap (vs : List Pt) (t : Nat × Nat × Nat)
    (h1 : t.1 < vs.length) (h2 : t.2.1 < vs.length) (h3 : t.2.2 < vs.length) :
    triDegenerate vs.dedup
      (remapVertex vs vs.dedup t.1, remapVertex vs vs.dedup t.2.1,
        remapVertex vs vs.dedup t.2.2)
      = triDegenerate vs t := by
  unfold triDegenerate
  rw [triPositions_remap vs t h1 h2 h3]

/-- The last two cleanup stages establish and preserve the invariant:
starting from any triangle list whose indices are valid and whose
triangles are all non-degenerate, deduplicating vertices and removing
non-manifold edges yields duplicate-free vertices and only
non-degenerate triangles. -/
theorem cleanup_aux (vs : List Pt) (tris : List (Nat × Nat × Nat))
    (hval : ∀ t ∈ tris, t.1 < vs.length ∧ t.2.1 < vs.length ∧ t.2.2 < vs.length)
    (hdeg : ∀ t ∈ tris, triDegenerate vs t = false) :
    (remove_non_manifold_edges (remove_duplicated_vertices
      { vertices := vs, triangles := tris })).vertices.Nodup ∧
    ∀ t' ∈ (remove_non_manifold_edges (remove_duplicated_vertices
        { vertices := vs, triangles := tris })).triangles,
      triDegenerate (remove_non_manifold_edges (remove_duplicated_vertices
        { vertices := vs, triangles := tris })).vertices t' = false := by
  constructor
  · show (vs.dedup).Nodup
    exact List.nodup_dedup vs
  · intro t' ht'
    have ht'2 : t' ∈ (remove_duplicated_vertices
        { vertices := vs, triangles := tris }).triangles :=
      (List.mem_filter.mp ht').1
    obtain ⟨t, ht, rfl⟩ := List.mem_map.mp ht'2
    obtain ⟨h1, h2, h3⟩ := hval t ht
    show triDegenerate vs.dedup
      (remapVertex vs vs.dedup t.1, remapVertex vs vs.dedup t.2.1,
        remapVertex vs vs.dedup t.2.2) = false
    rw [triDegenerate_remap vs t h1 h2 h3]
    exact hdeg t ht

/-- C10: the mesh-cleanup sequence — degenerate triangles, duplicated
triangles, duplicated vertices, non-manifold edges, in the order of
`registration2.py:399-402` — returns a mesh with no duplicated vertex
positions and no degenerate (zero-area) triangles, for every input mesh
with valid triangle indices. -/
theorem c10_mesh_cleanup_invariant (m : Mesh) (hvalid : meshValid m) :
    (cleanupMesh m).vertices.Nodup ∧
    ∀ t ∈ (cleanupMesh m).triangles,
      triDegenerate (cleanupMesh m).vertices t = false := by
  have hval2 : ∀ t ∈ ((m.triangles.filter
      (fun t => ! triDegenerate m.vertices t)).dedup),
      t.1 < m.vertices.length ∧ t.2.1 < m.vertices.length ∧
        t.2.2 < m.vertices.length := by
    intro t ht
    exact hvalid t (List.mem_filter.mp (List.mem_dedup.mp ht)).1
  have hdeg2 : ∀ t ∈ ((m.triangles.filter
      (fun t => ! triDegenerate m.vertices t)).dedup),
      triDegenerate m.vertices t = false := by
    intro t ht
    have := (List.mem_filter.mp (List.mem_dedup.mp ht)).2
    simpa using this
  exact cleanup_aux m.vertices
    ((m.triangles.filter (fun t => ! triDegenerate m.vertices t)).dedup) hval2 hdeg2

/-- Witness for C10 at a concrete mesh with a duplicated vertex, a
duplicated triangle and a zero-area triangle. -/
theorem c10_mesh_cleanup_invariant_witness :
    meshValid meshW ∧
    ((cleanupMesh meshW).vertices.Nodup ∧
    ∀ t ∈ (cleanupMesh meshW).triangles,
      triDegenerate (cleanupMesh meshW).vertices t = false) :=
  ⟨by unfold meshValid; decide,
    c10_mesh_cleanup_invariant meshW (by unfold meshValid; decide)⟩
